import Mathlib

/-!
# Format-dispatch loader of the Three.js model editor (`src/script.js`)

A shallow embedding of `getFileExtension`, `addModel`, the eight `load…` functions and
their completion callbacks, followed by the properties of the dispatcher.

Modelling conventions

* JavaScript strings that the program inspects (file names, node names, extensions) are
  `List Char`; console messages, which are only ever compared as wholes, are `String`.
* The program state threaded through every function is `State`: the scene graph, the
  console, the registry of live object URLs and the trace of `loader.load` calls.
* An uncaught `TypeError` is the result `none`.
* The three.js scene graph is a rose tree. A node records whether it is an instance of
  `THREE.Mesh` together with the material it owns; each mesh owns its own material record
  (two nodes sharing one material object is not represented).
* A decoder delivers the kind of value the three.js decoder of that name delivers: a scene
  node for FBX and OBJ, a result record for GLTF and Collada, a `MaterialCreator` for MTL, a
  `BufferGeometry` for STL, a `CompressedTexture` for DDS. The three.js `add` takes a scene
  node only and refuses every other value with a `console.error`.
* Decoding is asynchronous. `addModel` only registers a `LoadCall`; the decoder later
  delivers progress, success or failure through `LoadCall.deliverProgress`,
  `LoadCall.deliverSuccess` and `LoadCall.deliverError`.
-/

namespace ModelEditor

/-! ## Data model -/

/-- A decoded texture, identified by a number. -/
abbrev Texture := Nat

/-- The error value handed to an error callback. -/
abbrev LoadError := String

/-- The material properties the program reads or writes (`map`, `needsUpdate`) and the two
set for the ground plane on lines 70-73 (`color`, `wireframe`). -/
structure Material where
  color : Nat
  wireframe : Bool
  map : Option Texture
  needsUpdate : Bool
deriving DecidableEq, Repr

/-- A node of the scene graph. `mesh` is `some m` exactly when the node is an instance of
`THREE.Mesh`, in which case `m` is its `material`. -/
inductive Object3D where
  | mk (uuid : Nat) (name : List Char) (mesh : Option Material) (children : List Object3D)

namespace Object3D

/-- Identity of the node. -/
def uuid : Object3D → Nat
  | .mk u _ _ _ => u

/-- The `name` property. -/
def name : Object3D → List Char
  | .mk _ n _ _ => n

/-- The material of a mesh, `none` for a node that is not a `THREE.Mesh`. -/
def mesh : Object3D → Option Material
  | .mk _ _ m _ => m

/-- The `children` array. -/
def children : Object3D → List Object3D
  | .mk _ _ _ cs => cs

end Object3D

/-- The scene root, `new THREE.Scene()` on line 48: never a mesh. -/
structure Scene where
  name : List Char
  children : List Object3D

/-- The result a GLTF decode delivers: a scene node and an animation clip list. -/
structure GLTF where
  scene : Object3D
  animations : List Nat

/-- The result `ColladaLoader` delivers: a record with a scene node and an animation clip
list; the record itself is not a scene-graph node. -/
structure Collada where
  scene : Object3D
  animations : List Nat

/-- The result `MTLLoader` delivers: a `MaterialCreator`, not a scene-graph node. -/
structure MaterialCreator where
  id : Nat
deriving DecidableEq, Repr

/-- The result `STLLoader` delivers: a `BufferGeometry`, not a scene-graph node. -/
structure BufferGeometry where
  id : Nat
deriving DecidableEq, Repr

/-- The result `DDSLoader` delivers: a `CompressedTexture`, not a scene-graph node. -/
structure CompressedTexture where
  id : Nat
deriving DecidableEq, Repr

/-- A JavaScript value passed to `scene.add` or to `console.log`. -/
inductive Value where
  | object3D (o : Object3D)
  | collada (dae : Collada)
  | materialCreator (mtl : MaterialCreator)
  | bufferGeometry (stl : BufferGeometry)
  | compressedTexture (dds : CompressedTexture)

/-- An input file: its name and its bytes. -/
structure File where
  name : List Char
  content : List Nat
deriving DecidableEq, Repr

/-- The registry `loaders` filled by `setUpLoaders` (lines 21-32). -/
inductive Loader where
  | textureLoader
  | gltfLoader
  | fbxLoader
  | objLoader
  | colladaLoader
  | ddsLoader
  | mtlLoader
  | stlLoader
deriving DecidableEq, Repr

/-- The success callbacks written in the source, one per `load…` function. -/
inductive OnLoad where
  | texture
  | gltf
  | fbx
  | mtl
  | stl
  | dds
  | collada
  | obj
deriving DecidableEq, Repr

/-- The progress callback `(xhr) => console.log((xhr.loaded / xhr.total) * 100 + "% loaded")`,
the same arrow function in every `load…` function. -/
inductive OnProgress where
  | percentLoaded
deriving DecidableEq, Repr

/-- An error callback `(error) => console.error(message, error)`. -/
structure OnError where
  message : String
deriving DecidableEq, Repr

/-- One call `loader.load(url, onLoad, onProgress, onError)`; the last two arguments may be
absent. -/
structure LoadCall where
  loader : Loader
  url : Nat
  onLoad : OnLoad
  onProgress : Option OnProgress
  onError : Option OnError
deriving DecidableEq, Repr

/-- Console channels. -/
inductive Level where
  | log
  | warn
  | error
deriving DecidableEq, Repr

/-- One argument of a console call. The progress percentage is kept as the pair it is
computed from. -/
inductive LogArg where
  | text (s : String)
  | error (e : LoadError)
  | object (o : Object3D)
  | value (v : Value)
  | animations (clips : List Nat)
  | percentLoaded (loaded total : Nat)

/-- One console call. -/
structure LogEntry where
  level : Level
  args : List LogArg

/-- The program state. `objectURLs` holds the object URLs created and not revoked, each with
the file it refers to; `created` counts the object URLs ever created; `loads` is the trace of
`loader.load` calls. -/
structure State where
  scene : Scene
  console : List LogEntry
  objectURLs : List (Nat × File)
  created : Nat
  loads : List LoadCall

/-! ## Library operations used by the program -/

/-- ECMAScript `String.prototype.split` with a one-character separator: the pieces between
the occurrences of the separator, in order; never empty. -/
def split (sep : Char) : List Char → List (List Char)
  | [] => [[]]
  | c :: cs =>
    if c = sep then [] :: split sep cs
    else
      match split sep cs with
      | [] => [[c]]
      | p :: ps => (c :: p) :: ps

/-- ECMAScript `Array.prototype.pop`, as a value: the last element, `undefined` (`none`) on
an empty array. -/
def pop (xs : List (List Char)) : Option (List Char) :=
  xs.getLast?

/-- ECMAScript `String.prototype.toLowerCase` on the letters `A`-`Z`. Other characters are
left in place: the Unicode mapping sends no character outside `A`-`Z` to a letter occurring in
`fileFormats`, so the comparison with the table entries is not affected. -/
def toLowerCase (s : List Char) : List Char :=
  s.map Char.toLower

/-- Modelled from the spec: `URL.createObjectURL(file)`, "a temporary byte-accessible handle
for the file contents (an ephemeral, revocable local reference)". Returns the new URL and
records it as live. -/
def createObjectURL (file : File) (s : State) : Nat × State :=
  (s.created,
    { s with objectURLs := s.objectURLs ++ [(s.created, file)], created := s.created + 1 })

/-- Modelled from the spec: `loader.load(url, onLoad, onProgress, onError)`, "invokes the
matching Decoder's decode operation with that handle"; the decode itself is asynchronous, so
the call only records the request. -/
def load (loader : Loader) (url : Nat) (onLoad : OnLoad) (onProgress : Option OnProgress)
    (onError : Option OnError) (s : State) : State :=
  { s with loads := s.loads ++ [⟨loader, url, onLoad, onProgress, onError⟩] }

/-- Modelled from the spec: `scene.add(object)`, "inserted directly as a new top-level child
of the scene graph, unconditionally, alongside existing content (no replacement, no
deduplication by name)". -/
def Scene.add (scene : Scene) (object : Object3D) : Scene :=
  { scene with children := scene.children ++ [object] }

mutual
/-- The three.js `Object3D.traverse(callback)`: the callback runs on the node, then on every
descendant, depth first. The callback is given as the material it leaves on the visited
node (the callbacks of this program write nothing else). -/
def Object3D.traverse (callback : Object3D → Option Material) : Object3D → Object3D
  | .mk uuid name mesh children =>
    .mk uuid name (callback (.mk uuid name mesh children)) (traverseList callback children)
/-- The loop of `traverse` over a `children` array. -/
def traverseList (callback : Object3D → Option Material) : List Object3D → List Object3D
  | [] => []
  | c :: cs => c.traverse callback :: traverseList callback cs
end

/-- The call `scene.traverse(callback)` on the root. The root is a `THREE.Scene`, not a mesh,
so the callbacks of this program leave it as it is and the visit continues with its
children. -/
def Scene.traverse (scene : Scene) (callback : Object3D → Option Material) : Scene :=
  { scene with children := traverseList callback scene.children }

/-- The call `console.error(...args)`. -/
def consoleError (args : List LogArg) (s : State) : State :=
  { s with console := s.console ++ [⟨Level.error, args⟩] }

/-- The call `console.log(...args)`. -/
def consoleLog (args : List LogArg) (s : State) : State :=
  { s with console := s.console ++ [⟨Level.log, args⟩] }

/-- The three.js `Object3D.add(object)` on a value of any kind: a scene node is added as by
`Scene.add`; for anything else the library logs
`THREE.Object3D.add: object not an instance of THREE.Object3D.` with the value, and the
children stay as they are. -/
def sceneAdd (object : Value) (s : State) : State :=
  match object with
  | .object3D o => { s with scene := s.scene.add o }
  | v =>
    consoleError
      [LogArg.text "THREE.Object3D.add: object not an instance of THREE.Object3D.",
        LogArg.value v] s

/-! ## The program -/

/-- The entry `fileFormats.texture.jpg`. -/
def fileFormats.texture.jpg : List Char := ['j', 'p', 'g']
/-- The entry `fileFormats.texture.png`. -/
def fileFormats.texture.png : List Char := ['p', 'n', 'g']
/-- The entry `fileFormats.texture.gif`. -/
def fileFormats.texture.gif : List Char := ['g', 'i', 'f']
/-- The entry `fileFormats.fbx`. -/
def fileFormats.fbx : List Char := ['f', 'b', 'x']
/-- The entry `fileFormats.gltf`. -/
def fileFormats.gltf : List Char := ['g', 'l', 't', 'f']
/-- The entry `fileFormats.glb`. -/
def fileFormats.glb : List Char := ['g', 'l', 'b']
/-- The entry `fileFormats.obj`. -/
def fileFormats.obj : List Char := ['o', 'b', 'j']
/-- The entry `fileFormats.collada`. -/
def fileFormats.collada : List Char := ['d', 'a', 'e']
/-- The entry `fileFormats.dds`. -/
def fileFormats.dds : List Char := ['d', 'd', 's']
/-- The entry `fileFormats.mtl`. -/
def fileFormats.mtl : List Char := ['m', 't', 'l']
/-- The entry `fileFormats.stl`. -/
def fileFormats.stl : List Char := ['s', 't', 'l']

/-- Lines 131-133: `fileName.split(".").pop().toLowerCase()`. Calling `toLowerCase` on
`undefined` throws. -/
def getFileExtension (fileName : List Char) : Option (List Char) :=
  (pop (split '.' fileName)).map toLowerCase

/-- The traversal callback of `loadTexture` (lines 138-146), with the value of
`scene.children[0].name` passed in: the node's material after the visit. -/
def textureVisit (firstName : List Char) (texture : Texture) (child : Object3D) :
    Option Material :=
  if child.name ≠ firstName then
    match child.mesh with
    | some material => some { material with map := some texture, needsUpdate := true }
    | none => none
  else child.mesh

/-- The success callback of `loadTexture` (lines 136-154). The guard reads
`scene.children[0].name` at every visit, the first of which is the root: on a scene without
children this throws before anything is written. Names are never written, so the value read
is the same at every visit. The two arrow functions that follow the traversal callback in
the source are surplus arguments of `scene.traverse` and are never called. -/
def textureOnLoad (texture : Texture) (s : State) : Option State :=
  match s.scene.children with
  | [] => none
  | first :: _ => some { s with scene := s.scene.traverse (textureVisit first.name texture) }

/-- The success callback of `loadGLTF` (lines 161-165). -/
def gltfOnLoad (gltf : GLTF) (s : State) : State :=
  consoleLog [LogArg.animations gltf.animations] { s with scene := s.scene.add gltf.scene }

/-- The success callback of `loadFBX` (lines 179-182). -/
def fbxOnLoad (fbx : Object3D) (s : State) : State :=
  consoleLog [LogArg.object fbx] { s with scene := s.scene.add fbx }

/-- The success callback of `loadMTL` (lines 196-199): `scene.add(mtl)` is called with the `MaterialCreator` itself. -/
def mtlOnLoad (mtl : MaterialCreator) (s : State) : State :=
  consoleLog [LogArg.value (.materialCreator mtl)] (sceneAdd (.materialCreator mtl) s)

/-- The success callback of `loadSTL` (lines 213-216): `scene.add(stl)` is called with the `BufferGeometry` itself. -/
def stlOnLoad (stl : BufferGeometry) (s : State) : State :=
  consoleLog [LogArg.value (.bufferGeometry stl)] (sceneAdd (.bufferGeometry stl) s)

/-- The success callback of `loadDDS` (lines 230-233): `scene.add(dds)` is called with the `CompressedTexture` itself. -/
def ddsOnLoad (dds : CompressedTexture) (s : State) : State :=
  consoleLog [LogArg.value (.compressedTexture dds)] (sceneAdd (.compressedTexture dds) s)

/-- The success callback of `loadCollada` (lines 247-250): `scene.add(dae)` is called with the result record, not with `dae.scene`. -/
def colladaOnLoad (dae : Collada) (s : State) : State :=
  consoleLog [LogArg.value (.collada dae)] (sceneAdd (.collada dae) s)

/-- The success callback of `loadOBJ` (lines 264-267). -/
def objOnLoad (obj : Object3D) (s : State) : State :=
  consoleLog [LogArg.object obj] { s with scene := s.scene.add obj }

/-- The value a success callback receives: what the three.js decoder it is registered with
delivers. -/
@[reducible] def OnLoad.Arg : OnLoad → Type
  | .texture => Texture
  | .gltf => GLTF
  | .fbx => Object3D
  | .mtl => MaterialCreator
  | .stl => BufferGeometry
  | .dds => CompressedTexture
  | .collada => Collada
  | .obj => Object3D

/-- Running a success callback. -/
def OnLoad.run : (cb : OnLoad) → cb.Arg → State → Option State
  | .texture, asset, s => textureOnLoad asset s
  | .gltf, asset, s => some (gltfOnLoad asset s)
  | .fbx, asset, s => some (fbxOnLoad asset s)
  | .mtl, asset, s => some (mtlOnLoad asset s)
  | .stl, asset, s => some (stlOnLoad asset s)
  | .dds, asset, s => some (ddsOnLoad asset s)
  | .collada, asset, s => some (colladaOnLoad asset s)
  | .obj, asset, s => some (objOnLoad asset s)

/-- Lines 135-155. `loader.load` receives the URL and the success callback only: the
progress and error arrows are written inside the argument list of `scene.traverse`. -/
def loadTexture (file : File) (loader : Loader) (s : State) : State :=
  let r := createObjectURL file s
  load loader r.1 OnLoad.texture none none r.2

/-- Lines 158-173. -/
def loadGLTF (file : File) (loader : Loader) (s : State) : State :=
  let r := createObjectURL file s
  load loader r.1 OnLoad.gltf (some .percentLoaded) (some ⟨"Error loading GLTF file"⟩) r.2

/-- Lines 176-190. -/
def loadFBX (file : File) (loader : Loader) (s : State) : State :=
  let r := createObjectURL file s
  load loader r.1 OnLoad.fbx (some .percentLoaded) (some ⟨"Error loading FBX file"⟩) r.2

/-- Lines 193-207. -/
def loadMTL (file : File) (loader : Loader) (s : State) : State :=
  let r := createObjectURL file s
  load loader r.1 OnLoad.mtl (some .percentLoaded) (some ⟨"Error loading MTL file"⟩) r.2

/-- Lines 210-224. -/
def loadSTL (file : File) (loader : Loader) (s : State) : State :=
  let r := createObjectURL file s
  load loader r.1 OnLoad.stl (some .percentLoaded) (some ⟨"Error loading STL file"⟩) r.2

/-- Lines 227-241. -/
def loadDDS (file : File) (loader : Loader) (s : State) : State :=
  let r := createObjectURL file s
  load loader r.1 OnLoad.dds (some .percentLoaded) (some ⟨"Error loading DDS file"⟩) r.2

/-- Lines 244-258. -/
def loadCollada (file : File) (loader : Loader) (s : State) : State :=
  let r := createObjectURL file s
  load loader r.1 OnLoad.collada (some .percentLoaded)
    (some ⟨"Error loading Collada file"⟩) r.2

/-- Lines 261-275. -/
def loadOBJ (file : File) (loader : Loader) (s : State) : State :=
  let r := createObjectURL file s
  load loader r.1 OnLoad.obj (some .percentLoaded) (some ⟨"Error loading OBJ file"⟩) r.2

/-- The `switch` of `addModel` (lines 97-128), cases in source order. -/
def dispatch (fileExtension : List Char) (file : File) (s : State) : State :=
  if fileExtension = fileFormats.texture.jpg ∨ fileExtension = fileFormats.texture.png
      ∨ fileExtension = fileFormats.texture.gif then
    loadTexture file Loader.textureLoader s
  else if fileExtension = fileFormats.collada then loadCollada file Loader.colladaLoader s
  else if fileExtension = fileFormats.dds then loadDDS file Loader.ddsLoader s
  else if fileExtension = fileFormats.fbx then loadFBX file Loader.fbxLoader s
  else if fileExtension = fileFormats.glb ∨ fileExtension = fileFormats.gltf then
    loadGLTF file Loader.gltfLoader s
  else if fileExtension = fileFormats.mtl then loadMTL file Loader.mtlLoader s
  else if fileExtension = fileFormats.obj then loadOBJ file Loader.objLoader s
  else if fileExtension = fileFormats.stl then loadSTL file Loader.stlLoader s
  else consoleError [LogArg.text "Unsupported file type"] s

/-- Lines 94-129. -/
def addModel (file : File) (s : State) : Option State :=
  match getFileExtension file.name with
  | none => none
  | some fileExtension => some (dispatch fileExtension file s)

/-! ## Delivery of the decode phases -/

/-- The decoder of a call delivers success: the success callback runs. -/
def LoadCall.deliverSuccess (c : LoadCall) (asset : c.onLoad.Arg) (s : State) : Option State :=
  c.onLoad.run asset s

/-- The decoder of a call delivers a progress update: the progress callback runs when one
was passed. -/
def LoadCall.deliverProgress (c : LoadCall) (loaded total : Nat) (s : State) : State :=
  match c.onProgress with
  | none => s
  | some .percentLoaded => consoleLog [LogArg.percentLoaded loaded total] s

/-- The decoder of a call delivers a failure: the error callback runs when one was passed. -/
def LoadCall.deliverError (c : LoadCall) (error : LoadError) (s : State) : State :=
  match c.onError with
  | none => s
  | some cb => consoleError [LogArg.text cb.message, LogArg.error error] s

/-! ## The state after start-up -/

/-- The material of the ground plane (line 72). -/
def planeMaterial : Material :=
  { color := 0xffffff, wireframe := true, map := none, needsUpdate := false }

/-- The `AxesHelper` of line 46: line segments, not a mesh; three.js names are empty unless
set. -/
def helper : Object3D := .mk 1 [] none []
/-- The camera of lines 54-61. -/
def camera : Object3D := .mk 2 [] none []
/-- The ground plane of lines 70-74, the only mesh at start-up. -/
def plane : Object3D := .mk 3 [] (some planeMaterial) []
/-- The ambient light of line 77. -/
def ambientLight : Object3D := .mk 4 [] none []
/-- The directional light of line 80. -/
def directionalLight : Object3D := .mk 5 [] none []

/-- The state once the module has been evaluated: the five `scene.add` calls of lines 49-81
in order, nothing logged, no object URL, no decode requested. -/
def initialState : State :=
  { scene := ⟨[], [helper, camera, plane, ambientLight, directionalLight]⟩
    console := []
    objectURLs := []
    created := 0
    loads := [] }

/-! ## Vocabulary of the specification -/

mutual
/-- A node and all its descendants, depth first. -/
def Object3D.nodes : Object3D → List Object3D
  | .mk uuid name mesh children => .mk uuid name mesh children :: nodesList children
/-- All nodes below a `children` array. -/
def nodesList : List Object3D → List Object3D
  | [] => []
  | c :: cs => c.nodes ++ nodesList cs
end

/-- Every node of the scene graph below the root, at any depth. -/
def Scene.nodes (scene : Scene) : List Object3D :=
  nodesList scene.children

/-- Every node of the scene graph below the root other than the first child of the root. -/
def Scene.nodesExceptFirst (scene : Scene) : List Object3D :=
  match scene.children with
  | [] => []
  | first :: rest => nodesList first.children ++ nodesList rest

/-- Two strings are equal ignoring case. -/
@[reducible] def eqIgnoreCase (a b : List Char) : Prop :=
  a.map Char.toLower = b.map Char.toLower

/-- The table of section 6 of the specification: each supported extension with the decoder
it selects. -/
def supported : List (List Char × Loader) :=
  [ ("jpg".toList, Loader.textureLoader), ("png".toList, Loader.textureLoader),
    ("gif".toList, Loader.textureLoader), ("fbx".toList, Loader.fbxLoader),
    ("gltf".toList, Loader.gltfLoader), ("glb".toList, Loader.gltfLoader),
    ("obj".toList, Loader.objLoader), ("dae".toList, Loader.colladaLoader),
    ("dds".toList, Loader.ddsLoader), ("mtl".toList, Loader.mtlLoader),
    ("stl".toList, Loader.stlLoader) ]

/-- The scene-graph node a decode result holds: the decoded node itself for FBX and OBJ,
the `scene` of a GLTF or Collada result; a texture, a `MaterialCreator`, a `BufferGeometry`
and a `CompressedTexture` hold none. -/
def OnLoad.addedNode : (cb : OnLoad) → cb.Arg → Option Object3D
  | .texture, _ => none
  | .gltf, asset => some asset.scene
  | .fbx, asset => some asset
  | .mtl, _ => none
  | .stl, _ => none
  | .dds, _ => none
  | .collada, asset => some asset.scene
  | .obj, asset => some asset

/-- A scene with the helper first and one named mesh after it. -/
def namedMeshState : State :=
  { initialState with
    scene := ⟨[], [helper, Object3D.mk 6 "Cube".toList (some planeMaterial) []]⟩ }

/-- The errors on the console. -/
def errorsLogged (s : State) : List LogEntry :=
  s.console.filter (fun e => e.level = Level.error)

end ModelEditor

namespace ModelEditor

/-! ## Classification -/

theorem split_ne_nil (sep : Char) (l : List Char) : split sep l ≠ [] := by
  cases l with
  | nil => simp [split]
  | cons c cs =>
    by_cases h : c = sep
    · simp [split, h]
    · simp only [split, if_neg h]
      split <;> simp

theorem split_of_not_mem (sep : Char) (l : List Char) (h : sep ∉ l) : split sep l = [l] := by
  induction l with
  | nil => rfl
  | cons c cs ih =>
    have hc : c ≠ sep := fun e => h (e ▸ List.mem_cons_self _ _)
    have hcs : sep ∉ cs := fun m => h (List.mem_cons_of_mem _ m)
    simp [split, hc, ih hcs]

theorem pop_split_cons (sep c : Char) (cs : List Char) (h : sep ∈ cs) :
    pop (split sep (c :: cs)) = pop (split sep cs) := by
  by_cases hc : c = sep
  · have hne := split_ne_nil sep cs
    simp only [split, if_pos hc, pop]
    cases hs : split sep cs with
    | nil => exact absurd hs hne
    | cons p ps => simp [List.getLast?_cons_cons]
  · simp only [split, if_neg hc, pop]
    cases hs : split sep cs with
    | nil => exact absurd hs (split_ne_nil sep cs)
    | cons p ps =>
      cases ps with
      | nil =>
        exfalso
        clear hc
        induction cs generalizing p with
        | nil => cases h
        | cons d ds ih =>
          by_cases hd : d = sep
          · simp [split, hd] at hs
            exact split_ne_nil sep ds hs.2
          · have hmem : sep ∈ ds := by
              rcases List.mem_cons.1 h with e | m
              · exact absurd e.symm hd
              · exact m
            simp only [split, if_neg hd] at hs
            cases hq : split sep ds with
            | nil => exact split_ne_nil sep ds hq
            | cons q qs =>
              rw [hq] at hs
              simp at hs
              exact ih hmem q (by rw [hq, hs.2])
      | cons q qs => simp [List.getLast?_cons_cons]

theorem pop_split_append (sep : Char) (pre ext : List Char) :
    pop (split sep (pre ++ sep :: ext)) = pop (split sep ext) := by
  induction pre with
  | nil =>
    have hne := split_ne_nil sep ext
    simp only [List.nil_append, split, if_true, pop]
    cases hs : split sep ext with
    | nil => exact absurd hs hne
    | cons p ps => simp [List.getLast?_cons_cons]
  | cons c cs ih =>
    rw [List.cons_append, pop_split_cons sep c _ (by simp), ih]

/-- The extension of a name that contains a dot is the lower-cased text after the last
dot. -/
theorem getFileExtension_append (pre ext : List Char) (h : '.' ∉ ext) :
    getFileExtension (pre ++ '.' :: ext) = some (toLowerCase ext) := by
  rw [getFileExtension, pop_split_append, split_of_not_mem _ _ h]
  rfl

/-- The extension of a name without a dot is the whole name, lower-cased. -/
theorem getFileExtension_of_no_dot (fileName : List Char) (h : '.' ∉ fileName) :
    getFileExtension fileName = some (toLowerCase fileName) := by
  rw [getFileExtension, split_of_not_mem _ _ h]
  rfl

/-- The lookup never throws: `split` returns at least one piece. -/
theorem getFileExtension_isSome (fileName : List Char) :
    ∃ e, getFileExtension fileName = some e := by
  cases h : pop (split '.' fileName) with
  | none =>
    simp only [pop] at h
    exact absurd (List.getLast?_eq_none_iff.1 h) (split_ne_nil _ _)
  | some e => exact ⟨toLowerCase e, by simp [getFileExtension, h]⟩

/-- The dispatch of a file whose extension is none of the table entries takes the default
branch. -/
theorem dispatch_default (e : List Char) (file : File) (s : State)
    (h : ∀ p ∈ supported, e ≠ p.1) :
    dispatch e file s = consoleError [LogArg.text "Unsupported file type"] s := by
  simp only [supported, List.mem_cons, List.mem_singleton, List.not_mem_nil, or_false,
    forall_eq_or_imp, forall_eq, String.toList] at h
  obtain ⟨h1, h2, h3, h4, h5, h6, h7, h8, h9, h10, h11⟩ := h
  simp only [dispatch, fileFormats.texture.jpg, fileFormats.texture.png,
    fileFormats.texture.gif, fileFormats.fbx, fileFormats.gltf, fileFormats.glb,
    fileFormats.obj, fileFormats.collada, fileFormats.dds, fileFormats.mtl, fileFormats.stl]
  rw [if_neg (by simp [h1, h2, h3]), if_neg h8, if_neg h9, if_neg h4,
    if_neg (by simp [h5, h6]), if_neg h10, if_neg h7, if_neg h11]

/-- Claim C1. A file name whose text after the last dot equals, ignoring case, an entry of
the supported table makes `addModel` create one object URL and call `load` exactly once, on
the decoder the table gives for that entry; nothing else in the state changes. -/
theorem addModel_supported_extension (pre ext : List Char) (content : List Nat)
    (e : List Char) (loader : Loader) (s : State) (hdot : '.' ∉ ext)
    (hcase : eqIgnoreCase ext e) (hmem : (e, loader) ∈ supported) :
    ∃ c : LoadCall, c.loader = loader ∧ c.url = s.created ∧
      addModel ⟨pre ++ '.' :: ext, content⟩ s =
        some { s with
          objectURLs := s.objectURLs ++ [(s.created, ⟨pre ++ '.' :: ext, content⟩)]
          created := s.created + 1
          loads := s.loads ++ [c] } := by
  have hext : getFileExtension (pre ++ '.' :: ext) = some (e.map Char.toLower) := by
    rw [getFileExtension_append pre ext hdot, toLowerCase, hcase]
  simp only [supported, List.mem_cons, List.mem_singleton, List.not_mem_nil, or_false,
    Prod.mk.injEq] at hmem
  rcases hmem with h | h | h | h | h | h | h | h | h | h | h <;>
    obtain ⟨rfl, rfl⟩ := h <;>
    exact ⟨_, rfl, rfl, by rw [addModel, hext]; rfl⟩

/-- Claim C1, at the file `MODEL.FBX` dropped on the start-up state. -/
theorem addModel_supported_extension_witness :
    '.' ∉ "FBX".toList ∧ eqIgnoreCase "FBX".toList "fbx".toList ∧
    ("fbx".toList, Loader.fbxLoader) ∈ supported ∧
    ∃ c : LoadCall, c.loader = Loader.fbxLoader ∧ c.url = initialState.created ∧
      addModel ⟨"MODEL".toList ++ '.' :: "FBX".toList, []⟩ initialState =
        some { initialState with
          objectURLs := initialState.objectURLs ++
            [(initialState.created, ⟨"MODEL".toList ++ '.' :: "FBX".toList, []⟩)]
          created := initialState.created + 1
          loads := initialState.loads ++ [c] } :=
  ⟨by decide, by decide, by decide,
    addModel_supported_extension "MODEL".toList "FBX".toList [] "fbx".toList Loader.fbxLoader
      initialState (by decide) (by decide) (by decide)⟩

/-- Claim C2, evaluated at a file named `fbx` (no dot, so no extension) dropped on the
start-up state: `getFileExtension` returns the whole name, the `fbx` case of the switch is
taken, the FBX decoder is invoked and no error is logged. -/
theorem addModel_name_without_dot :
    getFileExtension "fbx".toList = some "fbx".toList ∧
    (addModel ⟨"fbx".toList, []⟩ initialState).map
        (fun s => (s.loads.map LoadCall.loader, (errorsLogged s).length)) =
      some ([Loader.fbxLoader], 0) := by
  decide

/-- Claim C3. A file whose extension is none of the table entries makes `addModel` log
exactly one error and nothing else: no `load` call, no object URL, the scene graph as it
was. -/
theorem addModel_unrecognized (file : File) (s : State)
    (h : ∀ p ∈ supported, getFileExtension file.name ≠ some p.1) :
    ∃ s1, addModel file s = some s1 ∧ s1.loads = s.loads ∧ s1.objectURLs = s.objectURLs ∧
      s1.created = s.created ∧ s1.scene = s.scene ∧
      s1.console = s.console ++ [⟨Level.error, [LogArg.text "Unsupported file type"]⟩] ∧
      errorsLogged s1 =
        errorsLogged s ++ [⟨Level.error, [LogArg.text "Unsupported file type"]⟩] := by
  obtain ⟨e, he⟩ := getFileExtension_isSome file.name
  have hd := dispatch_default e file s (fun p hp heq => h p hp (by rw [he, heq]))
  refine ⟨_, by rw [addModel, he], ?_⟩
  rw [hd]
  simp [consoleError, errorsLogged]

/-- Claim C3, at the file `notes.txt` dropped on the start-up state. -/
theorem addModel_unrecognized_witness :
    (∀ p ∈ supported, getFileExtension (File.mk "notes.txt".toList []).name ≠ some p.1) ∧
    ∃ s1, addModel ⟨"notes.txt".toList, []⟩ initialState = some s1 ∧
      s1.loads = initialState.loads ∧ s1.objectURLs = initialState.objectURLs ∧
      s1.created = initialState.created ∧ s1.scene = initialState.scene ∧
      s1.console =
        initialState.console ++ [⟨Level.error, [LogArg.text "Unsupported file type"]⟩] ∧
      errorsLogged s1 =
        errorsLogged initialState ++
          [⟨Level.error, [LogArg.text "Unsupported file type"]⟩] :=
  ⟨by decide, addModel_unrecognized ⟨"notes.txt".toList, []⟩ initialState (by decide)⟩

/-! ## Insertion of decoded nodes -/

/-- A file of the FBX, GLTF/GLB or OBJ format registers one `load` call, and whenever the
decoder of that call delivers success, in whatever state the scene graph then is, the
success callback appends exactly one top-level child (the decoded node, for GLTF the `scene`
of the result) after the children already present, which stay as they were. -/
theorem deliverSuccess_appends_node (file : File) (e : List Char) (loader : Loader)
    (s : State) (hext : getFileExtension file.name = some e)
    (hmem : (e, loader) ∈ supported)
    (hload : loader = Loader.fbxLoader ∨ loader = Loader.gltfLoader ∨
      loader = Loader.objLoader) :
    ∃ s1 c, addModel file s = some s1 ∧ s1.loads = s.loads ++ [c] ∧ c.loader = loader ∧
      ∀ (asset : c.onLoad.Arg) (s2 : State), ∃ node s3,
        c.onLoad.addedNode asset = some node ∧ c.deliverSuccess asset s2 = some s3 ∧
        s3.scene.children = s2.scene.children ++ [node] ∧
        s3.scene.children.length = s2.scene.children.length + 1 ∧
        s3.scene.name = s2.scene.name := by
  simp only [supported, List.mem_cons, List.mem_singleton, List.not_mem_nil, or_false,
    Prod.mk.injEq] at hmem
  rcases hmem with h | h | h | h | h | h | h | h | h | h | h <;>
    obtain ⟨rfl, rfl⟩ := h <;>
    first
    | exact absurd hload (by decide)
    | exact ⟨_, _, by rw [addModel, hext], by rfl, by rfl, by
        intro asset s2
        exact ⟨_, _, by rfl, by rfl, by rfl, by
          show (s2.scene.children ++ [_]).length = _
          simp, by rfl⟩⟩

/-- A file of the Collada, DDS, MTL or STL format registers one `load` call, and whenever
the decoder of that call delivers success the value handed to `scene.add` is not a scene
node: the scene graph stays as it was and one error is logged by the library. -/
theorem deliverSuccess_refused (file : File) (e : List Char) (loader : Loader)
    (s : State) (hext : getFileExtension file.name = some e)
    (hmem : (e, loader) ∈ supported)
    (hload : loader = Loader.colladaLoader ∨ loader = Loader.ddsLoader ∨
      loader = Loader.mtlLoader ∨ loader = Loader.stlLoader) :
    ∃ s1 c, addModel file s = some s1 ∧ s1.loads = s.loads ++ [c] ∧ c.loader = loader ∧
      ∀ (asset : c.onLoad.Arg) (s2 : State), ∃ s3,
        c.deliverSuccess asset s2 = some s3 ∧ s3.scene = s2.scene ∧
        (errorsLogged s3).length = (errorsLogged s2).length + 1 := by
  simp only [supported, List.mem_cons, List.mem_singleton, List.not_mem_nil, or_false,
    Prod.mk.injEq] at hmem
  rcases hmem with h | h | h | h | h | h | h | h | h | h | h <;>
    obtain ⟨rfl, rfl⟩ := h <;>
    first
    | exact absurd hload (by decide)
    | exact ⟨_, _, by rw [addModel, hext], by rfl, by rfl, by
        intro asset s2
        exact ⟨_, by rfl, by rfl, by
          simp [errorsLogged, colladaOnLoad, ddsOnLoad, mtlOnLoad, stlOnLoad, consoleLog,
            consoleError, sceneAdd, List.filter_append]⟩⟩

/-- Claim C4, evaluated at the file `part.stl` dropped on the start-up state and decoded
successfully: the one `load` call made for it is on the STL decoder with the success
callback of `loadSTL`; that callback hands the decoded `BufferGeometry` to `scene.add`,
which refuses it, so the root still has its five children and one error is on the
console. -/
theorem stl_success_adds_no_child :
    ∃ s1, addModel ⟨"part.stl".toList, []⟩ initialState = some s1 ∧
      s1.loads.map (fun c => (c.loader, c.onLoad)) = [(Loader.stlLoader, OnLoad.stl)] ∧
      ∃ s2, OnLoad.stl.run (BufferGeometry.mk 0) s1 = some s2 ∧
        s2.scene.children.length = initialState.scene.children.length ∧
        s2.scene.children.map Object3D.uuid = [1, 2, 3, 4, 5] ∧
        (errorsLogged s2).length = 1 :=
  ⟨_, rfl, rfl, _, rfl, rfl, rfl, rfl⟩

/-- Claim C8. Running the success callbacks of two OBJ loads in either order leaves the
children already present as they were and appends both decoded nodes, one per callback: two
more children, and the two final child lists hold the same nodes. -/
theorem objOnLoad_either_order (s : State) (a b : Object3D) :
    (objOnLoad b (objOnLoad a s)).scene.children = s.scene.children ++ [a, b] ∧
    (objOnLoad a (objOnLoad b s)).scene.children = s.scene.children ++ [b, a] ∧
    (objOnLoad b (objOnLoad a s)).scene.children.length = s.scene.children.length + 2 ∧
    (objOnLoad a (objOnLoad b s)).scene.children.length = s.scene.children.length + 2 ∧
    OnLoad.obj.run b (objOnLoad a s) = some (objOnLoad b (objOnLoad a s)) ∧
    OnLoad.obj.run a (objOnLoad b s) = some (objOnLoad a (objOnLoad b s)) ∧
    List.Perm (objOnLoad b (objOnLoad a s)).scene.children
      (objOnLoad a (objOnLoad b s)).scene.children := by
  have hab : (objOnLoad b (objOnLoad a s)).scene.children = s.scene.children ++ [a, b] := by
    simp [objOnLoad, consoleLog, Scene.add]
  have hba : (objOnLoad a (objOnLoad b s)).scene.children = s.scene.children ++ [b, a] := by
    simp [objOnLoad, consoleLog, Scene.add]
  refine ⟨hab, hba, by simp [hab], by simp [hba], rfl, rfl, ?_⟩
  rw [hab, hba]
  exact List.Perm.append_left _ (List.Perm.swap b a [])

/-! ## Texture application -/

theorem traverseList_eq_map (cb : Object3D → Option Material) (l : List Object3D) :
    traverseList cb l = l.map (Object3D.traverse cb) := by
  induction l with
  | nil => rfl
  | cons c cs ih => rw [traverseList, ih]; rfl

theorem traverse_uuid (cb : Object3D → Option Material) (n : Object3D) :
    (n.traverse cb).uuid = n.uuid := by
  cases n; rfl

theorem traverse_name (cb : Object3D → Option Material) (n : Object3D) :
    (n.traverse cb).name = n.name := by
  cases n; rfl

theorem traverse_mesh (cb : Object3D → Option Material) (n : Object3D) :
    (n.traverse cb).mesh = cb n := by
  cases n; rfl

mutual
theorem nodes_traverse (cb : Object3D → Option Material) :
    ∀ n : Object3D, (n.traverse cb).nodes = n.nodes.map (Object3D.traverse cb)
  | .mk u nm m cs => by
    rw [Object3D.traverse, Object3D.nodes, Object3D.nodes, nodesList_traverseList cb cs]
    simp [Object3D.traverse]
theorem nodesList_traverseList (cb : Object3D → Option Material) :
    ∀ l : List Object3D, nodesList (traverseList cb l) = (nodesList l).map (Object3D.traverse cb)
  | [] => rfl
  | c :: cs => by
    rw [traverseList, nodesList, nodesList, nodes_traverse cb c,
      nodesList_traverseList cb cs, List.map_append]
end

mutual
theorem traverse_eq_self (cb : Object3D → Option Material) :
    ∀ n : Object3D, (∀ x ∈ n.nodes, cb x = x.mesh) → n.traverse cb = n
  | .mk u nm m cs, h => by
    have hcs := traverseList_eq_self cb cs
      (fun x hx => h x (by rw [Object3D.nodes]; exact List.mem_cons_of_mem _ hx))
    have hself := h (.mk u nm m cs) (by rw [Object3D.nodes]; exact List.mem_cons_self _ _)
    rw [Object3D.traverse, hcs, hself]
    rfl
theorem traverseList_eq_self (cb : Object3D → Option Material) :
    ∀ l : List Object3D, (∀ x ∈ nodesList l, cb x = x.mesh) → traverseList cb l = l
  | [], _ => rfl
  | c :: cs, h => by
    have hc := traverse_eq_self cb c
      (fun x hx => h x (by rw [nodesList]; exact List.mem_append_left _ hx))
    have hcs := traverseList_eq_self cb cs
      (fun x hx => h x (by rw [nodesList]; exact List.mem_append_right _ hx))
    rw [traverseList, hc, hcs]
end

theorem textureVisit_of_name_eq (firstName : List Char) (t : Texture) (n : Object3D)
    (h : n.name = firstName) : textureVisit firstName t n = n.mesh := by
  simp [textureVisit, h]

theorem textureVisit_of_name_ne (firstName : List Char) (t : Texture) (n : Object3D)
    (m : Material) (h : n.name ≠ firstName) (hm : n.mesh = some m) :
    textureVisit firstName t n = some { m with map := some t, needsUpdate := true } := by
  simp [textureVisit, h, hm]

theorem textureVisit_again (firstName : List Char) (t : Texture) (u : Nat)
    (nm : List Char) (m : Option Material) (cs cs1 : List Object3D) :
    textureVisit firstName t (.mk u nm (textureVisit firstName t (.mk u nm m cs)) cs1) =
      textureVisit firstName t (.mk u nm m cs) := by
  by_cases h : nm = firstName
  · simp [textureVisit, Object3D.mesh, Object3D.name, h]
  · cases m with
    | none => simp [textureVisit, Object3D.mesh, Object3D.name, h]
    | some mat => simp [textureVisit, Object3D.mesh, Object3D.name, h]

mutual
theorem traverse_textureVisit_again (firstName : List Char) (t : Texture) :
    ∀ n : Object3D, (n.traverse (textureVisit firstName t)).traverse (textureVisit firstName t)
      = n.traverse (textureVisit firstName t)
  | .mk u nm m cs => by
    rw [Object3D.traverse, Object3D.traverse, traverseList_textureVisit_again firstName t cs,
      textureVisit_again]
theorem traverseList_textureVisit_again (firstName : List Char) (t : Texture) :
    ∀ l : List Object3D,
      traverseList (textureVisit firstName t) (traverseList (textureVisit firstName t) l)
        = traverseList (textureVisit firstName t) l
  | [] => rfl
  | c :: cs => by
    rw [traverseList, traverseList, traverse_textureVisit_again firstName t c,
      traverseList_textureVisit_again firstName t cs]
end

/-- On a scene with a first child the texture callback completes, and its result is the
traversal with the first child's name as the excluded name. -/
theorem textureOnLoad_of_cons (t : Texture) (s : State) (first : Object3D)
    (rest : List Object3D) (h : s.scene.children = first :: rest) :
    textureOnLoad t s = some { s with scene :=
      { s.scene with children := traverseList (textureVisit first.name t) (first :: rest) } } := by
  simp only [textureOnLoad, h, Scene.traverse]

/-- Claim C5 as stated fails on the start-up scene: after a texture with number 7 has been
applied, the ground plane, a mesh that is not the first child of the root, still has no
texture and is not marked dirty, because its name (empty) equals the name of the first
child. -/
theorem textureOnLoad_leaves_same_name_mesh :
    ∃ s1, textureOnLoad 7 initialState = some s1 ∧
      plane ∈ s1.scene.nodesExceptFirst ∧ plane.mesh = some planeMaterial ∧
      planeMaterial.map = none ∧ planeMaterial.needsUpdate = false ∧
      ¬ ∀ n ∈ s1.scene.nodesExceptFirst, ∀ m, n.mesh = some m →
          m.map = some 7 ∧ m.needsUpdate = true := by
  have hmem : plane ∈ [camera, plane, ambientLight, directionalLight] :=
    List.mem_cons_of_mem _ (List.mem_cons_self _ _)
  refine ⟨_, rfl, hmem, rfl, rfl, rfl, fun h => ?_⟩
  have h7 := (h plane hmem planeMaterial rfl).1
  exact absurd h7 (by decide)

/-- Claim C5, amended. On a scene with a first child the texture callback completes, and
every mesh of the scene graph, at any depth, whose name differs from the name of the first
child of the root is afterwards the same node (same identity, same name, still a mesh) with
the new texture as `map` and `needsUpdate` set, its other material properties kept; a node
that is not a mesh stays one. Read on the result: every mesh there with such a name has the
new texture and is marked dirty. -/
theorem textureOnLoad_textures_other_names (t : Texture) (s : State) (first : Object3D)
    (rest : List Object3D) (h : s.scene.children = first :: rest) :
    ∃ s1, textureOnLoad t s = some s1 ∧
      List.Forall₂
        (fun n n1 => n1.uuid = n.uuid ∧ n1.name = n.name ∧
          (n.name ≠ first.name →
            n1.mesh = n.mesh.map (fun m => { m with map := some t, needsUpdate := true })))
        s.scene.nodes s1.scene.nodes ∧
      (∀ n ∈ s1.scene.nodes, ∀ m, n.mesh = some m → n.name ≠ first.name →
        m.map = some t ∧ m.needsUpdate = true) := by
  refine ⟨_, textureOnLoad_of_cons t s first rest h, ?_, ?_⟩
  · simp only [Scene.nodes, nodesList_traverseList, h]
    rw [List.forall₂_map_right_iff, List.forall₂_same]
    intro n _
    refine ⟨traverse_uuid _ n, traverse_name _ n, fun hn => ?_⟩
    rw [traverse_mesh]
    cases hm : n.mesh with
    | none => simp [textureVisit, hn, hm]
    | some m => rw [textureVisit_of_name_ne _ _ _ m hn hm]; rfl
  · intro n hn m hm hname
    simp only [Scene.nodes, nodesList_traverseList, List.mem_map] at hn
    obtain ⟨n0, -, rfl⟩ := hn
    rw [traverse_name] at hname
    rw [traverse_mesh] at hm
    cases hm0 : n0.mesh with
    | none => simp [textureVisit, hm0] at hm
    | some m0 =>
      rw [textureVisit_of_name_ne _ _ _ m0 hname hm0] at hm
      cases hm
      exact ⟨rfl, rfl⟩

/-- Claim C5, amended, on a scene with the unnamed helper first and a mesh named `Cube`
after it. -/
theorem textureOnLoad_textures_other_names_witness :
    namedMeshState.scene.children =
      helper :: [Object3D.mk 6 "Cube".toList (some planeMaterial) []] ∧
    ∃ s1, textureOnLoad 7 namedMeshState = some s1 ∧
      List.Forall₂
        (fun n n1 => n1.uuid = n.uuid ∧ n1.name = n.name ∧
          (n.name ≠ helper.name →
            n1.mesh = n.mesh.map (fun m => { m with map := some 7, needsUpdate := true })))
        namedMeshState.scene.nodes s1.scene.nodes ∧
      (∀ n ∈ s1.scene.nodes, ∀ m, n.mesh = some m → n.name ≠ helper.name →
        m.map = some 7 ∧ m.needsUpdate = true) :=
  ⟨rfl, textureOnLoad_textures_other_names 7 namedMeshState helper
    [Object3D.mk 6 "Cube".toList (some planeMaterial) []] rfl⟩

/-- On the scene with the helper first and a mesh named `Cube` after it, applying texture 7
gives the same two nodes, the mesh now holding the texture and marked dirty. -/
theorem textureOnLoad_namedMeshState :
    (textureOnLoad 7 namedMeshState).map (fun s1 => s1.scene.children.map
        (fun n => (n.uuid, n.name, n.mesh))) =
      some [(1, [], none),
        (6, "Cube".toList, some { planeMaterial with map := some 7, needsUpdate := true })] := by
  decide

/-- Claim C9. Applying the same texture twice gives the state that applying it once gives
(every material, and everything else, is the same); the callback completes exactly on the
scenes that have a child. -/
theorem textureOnLoad_twice (t : Texture) (s : State) :
    (textureOnLoad t s).bind (textureOnLoad t) = textureOnLoad t s ∧
    (textureOnLoad t s).isSome = !s.scene.children.isEmpty := by
  cases h : s.scene.children with
  | nil => simp [textureOnLoad, h]
  | cons first rest =>
    rw [textureOnLoad_of_cons t s first rest h]
    refine ⟨?_, rfl⟩
    rw [Option.some_bind, traverseList]
    rw [textureOnLoad_of_cons t _ (first.traverse (textureVisit first.name t))
      (traverseList (textureVisit first.name t) rest) rfl]
    rw [traverse_name, ← traverseList, traverseList_textureVisit_again]

/-- Claim C10. On a scene with at least one child the texture callback completes, leaves
the material of the first child of the root as it was, keeps the child list of the root
(same nodes, same order), and changes nothing at all when no mesh of the scene graph has a
name different from the first child's (in particular when the scene graph has no mesh
besides the first child). -/
theorem textureOnLoad_first_child_untouched (t : Texture) (s : State) (first : Object3D)
    (rest : List Object3D) (h : s.scene.children = first :: rest) :
    ∃ s1, textureOnLoad t s = some s1 ∧
      (∃ first1 rest1, s1.scene.children = first1 :: rest1 ∧ first1.uuid = first.uuid ∧
        first1.mesh = first.mesh) ∧
      s1.scene.children.map Object3D.uuid = s.scene.children.map Object3D.uuid ∧
      s1.scene.children.map Object3D.name = s.scene.children.map Object3D.name ∧
      ((∀ n ∈ s.scene.nodes, ∀ m, n.mesh = some m → n.name = first.name) → s1 = s) := by
  refine ⟨_, textureOnLoad_of_cons t s first rest h, ⟨_, _, rfl, traverse_uuid _ _, ?_⟩,
    ?_, ?_, ?_⟩
  · rw [traverse_mesh, textureVisit_of_name_eq _ _ _ rfl]
  · simp only [traverseList_eq_map, h, List.map_map]
    exact List.map_congr_left (fun n _ => traverse_uuid _ n)
  · simp only [traverseList_eq_map, h, List.map_map]
    exact List.map_congr_left (fun n _ => traverse_name _ n)
  · intro hq
    have hsame : traverseList (textureVisit first.name t) (first :: rest) = first :: rest := by
      apply traverseList_eq_self
      intro x hx
      cases hm : x.mesh with
      | none => simp [textureVisit, hm]
      | some m =>
        rw [← hm]
        exact textureVisit_of_name_eq _ _ _ (hq x (by rw [Scene.nodes, h]; exact hx) m hm)
    rw [hsame, ← h]

/-- Claim C10, on the start-up scene: the helper is first, and no mesh has a name other
than the helper's. -/
theorem textureOnLoad_first_child_untouched_witness :
    initialState.scene.children = helper :: [camera, plane, ambientLight, directionalLight] ∧
    ∃ s1, textureOnLoad 7 initialState = some s1 ∧
      (∃ first1 rest1, s1.scene.children = first1 :: rest1 ∧ first1.uuid = helper.uuid ∧
        first1.mesh = helper.mesh) ∧
      s1.scene.children.map Object3D.uuid = initialState.scene.children.map Object3D.uuid ∧
      s1.scene.children.map Object3D.name = initialState.scene.children.map Object3D.name ∧
      ((∀ n ∈ initialState.scene.nodes, ∀ m, n.mesh = some m → n.name = helper.name) →
        s1 = initialState) :=
  ⟨rfl, textureOnLoad_first_child_untouched 7 initialState helper
    [camera, plane, ambientLight, directionalLight] rfl⟩

/-! ## Failure delivery and object URLs -/

theorem deliverError_frame (c : LoadCall) (err : LoadError) (s : State) :
    (c.deliverError err s).scene = s.scene ∧
    (c.deliverError err s).objectURLs = s.objectURLs ∧
    (c.deliverError err s).loads = s.loads := by
  unfold LoadCall.deliverError
  cases c.onError <;> exact ⟨rfl, rfl, rfl⟩

theorem deliverProgress_frame (c : LoadCall) (loaded total : Nat) (s : State) :
    (c.deliverProgress loaded total s).scene = s.scene ∧
    (c.deliverProgress loaded total s).objectURLs = s.objectURLs := by
  unfold LoadCall.deliverProgress
  cases c.onProgress with
  | none => exact ⟨rfl, rfl⟩
  | some p => cases p; exact ⟨rfl, rfl⟩

theorem run_objectURLs (cb : OnLoad) (asset : cb.Arg) (s s1 : State)
    (h : cb.run asset s = some s1) : s1.objectURLs = s.objectURLs := by
  cases cb with
  | texture =>
    simp only [OnLoad.run, textureOnLoad] at h
    split at h
    · cases h
    · cases h; rfl
  | gltf => cases h; rfl
  | fbx => cases h; rfl
  | mtl => cases h; rfl
  | stl => cases h; rfl
  | dds => cases h; rfl
  | collada => cases h; rfl
  | obj => cases h; rfl

/-- A supported format other than a texture passes an error callback to `load`, and a
failure delivered to it logs exactly one error, made of that callback's message and the
underlying error, leaving the scene graph as it was. -/
theorem deliverError_logs_one_error (file : File) (e : List Char) (loader : Loader)
    (s : State) (hext : getFileExtension file.name = some e)
    (hmem : (e, loader) ∈ supported) (hload : loader ≠ Loader.textureLoader) :
    ∃ s1 c msg, addModel file s = some s1 ∧ s1.loads = s.loads ++ [c] ∧
      c.onError = some ⟨msg⟩ ∧
      ∀ (err : LoadError) (s2 : State),
        (c.deliverError err s2).scene = s2.scene ∧
        (c.deliverError err s2).console =
          s2.console ++ [⟨Level.error, [LogArg.text msg, LogArg.error err]⟩] := by
  simp only [supported, List.mem_cons, List.mem_singleton, List.not_mem_nil, or_false,
    Prod.mk.injEq] at hmem
  rcases hmem with h | h | h | h | h | h | h | h | h | h | h <;>
    obtain ⟨rfl, rfl⟩ := h <;>
    first
    | exact absurd rfl hload
    | exact ⟨_, _, _, by rw [addModel, hext], by rfl, by rfl, by
        intro err s2
        exact ⟨by rfl, by rfl⟩⟩

/-- Claim C6, evaluated at the file `photo.jpg` dropped on the start-up state: the one
`load` call made for it carries no error callback, so a failure delivered by the texture
decoder changes nothing and no error is on the console afterwards. -/
theorem loadTexture_failure_not_logged :
    ∃ s1 c, addModel ⟨"photo.jpg".toList, []⟩ initialState = some s1 ∧ s1.loads = [c] ∧
      c.loader = Loader.textureLoader ∧ c.onError = none ∧
      ∀ err : LoadError, c.deliverError err s1 = s1 ∧
        errorsLogged (c.deliverError err s1) = [] :=
  ⟨_, _, rfl, rfl, rfl, rfl, fun _ => ⟨rfl, rfl⟩⟩

/-- Claim C7 as stated fails for the file `chair.obj` dropped on the start-up state: after
the decoder has delivered a failure the scene graph is as it was, and the object URL
created for the file is still live. -/
theorem objectURL_live_after_failure :
    ∃ s1 c, addModel ⟨"chair.obj".toList, []⟩ initialState = some s1 ∧ s1.loads = [c] ∧
      (c.deliverError "decode failed" s1).scene = initialState.scene ∧
      (c.deliverError "decode failed" s1).objectURLs = [(c.url, ⟨"chair.obj".toList, []⟩)] ∧
      ¬ (c.deliverError "decode failed" s1).objectURLs = initialState.objectURLs :=
  ⟨_, _, rfl, rfl, rfl, rfl, by decide⟩

/-- Claim C7, amended. A file of a supported format makes `addModel` create exactly one
object URL and pass it to the one `load` call; no delivery to that call, be it failure,
progress or success, in whatever state, removes an object URL, and a failure leaves the
scene graph as it was. The live object URLs therefore grow by one with each such file. -/
theorem objectURL_never_released (file : File) (e : List Char) (loader : Loader) (s : State)
    (hext : getFileExtension file.name = some e) (hmem : (e, loader) ∈ supported) :
    ∃ s1 c, addModel file s = some s1 ∧ s1.loads = s.loads ++ [c] ∧ c.url = s.created ∧
      s1.objectURLs = s.objectURLs ++ [(c.url, file)] ∧
      (∀ (err : LoadError) (s2 : State),
        (c.deliverError err s2).scene = s2.scene ∧
        (c.deliverError err s2).objectURLs = s2.objectURLs) ∧
      (∀ (loaded total : Nat) (s2 : State),
        (c.deliverProgress loaded total s2).objectURLs = s2.objectURLs) ∧
      (∀ (asset : c.onLoad.Arg) (s2 s3 : State),
        c.deliverSuccess asset s2 = some s3 → s3.objectURLs = s2.objectURLs) := by
  have key : ∃ s1 c, addModel file s = some s1 ∧ s1.loads = s.loads ++ [c] ∧
      c.url = s.created ∧ s1.objectURLs = s.objectURLs ++ [(c.url, file)] := by
    simp only [supported, List.mem_cons, List.mem_singleton, List.not_mem_nil, or_false,
      Prod.mk.injEq] at hmem
    rcases hmem with h | h | h | h | h | h | h | h | h | h | h <;>
      obtain ⟨rfl, rfl⟩ := h <;>
      exact ⟨_, _, by rw [addModel, hext], by rfl, by rfl, by rfl⟩
  obtain ⟨s1, c, h1, h2, h3, h4⟩ := key
  exact ⟨s1, c, h1, h2, h3, h4,
    fun err s2 => ⟨(deliverError_frame c err s2).1, (deliverError_frame c err s2).2.1⟩,
    fun loaded total s2 => (deliverProgress_frame c loaded total s2).2,
    fun asset s2 s3 h => run_objectURLs c.onLoad asset s2 s3 h⟩

/-- Claim C7, amended, at the file `chair.obj` dropped on the start-up state. -/
theorem objectURL_never_released_witness :
    getFileExtension (File.mk "chair.obj".toList []).name = some "obj".toList ∧
    ("obj".toList, Loader.objLoader) ∈ supported ∧
    ∃ s1 c, addModel ⟨"chair.obj".toList, []⟩ initialState = some s1 ∧
      s1.loads = initialState.loads ++ [c] ∧ c.url = initialState.created ∧
      s1.objectURLs = initialState.objectURLs ++ [(c.url, ⟨"chair.obj".toList, []⟩)] ∧
      (∀ (err : LoadError) (s2 : State),
        (c.deliverError err s2).scene = s2.scene ∧
        (c.deliverError err s2).objectURLs = s2.objectURLs) ∧
      (∀ (loaded total : Nat) (s2 : State),
        (c.deliverProgress loaded total s2).objectURLs = s2.objectURLs) ∧
      (∀ (asset : c.onLoad.Arg) (s2 s3 : State),
        c.deliverSuccess asset s2 = some s3 → s3.objectURLs = s2.objectURLs) :=
  ⟨by decide, by decide,
    objectURL_never_released ⟨"chair.obj".toList, []⟩ "obj".toList Loader.objLoader
      initialState (by decide) (by decide)⟩

end ModelEditor
